import Mathlib

/-!
Shallow embedding of the prayer-time computation core of the Adhan-Live
repository (files adhan-live-gui.py, adhan-live.py, BackUp/adhan-live.py).

Modelling conventions:
* an instant is an `Int`, the number of seconds of local wall-clock time
  since a fixed local epoch (second granularity: the Python code zeroes
  `second`/`microsecond` on every stored prayer time, and no claim's
  boundary sits on a sub-second value);
* a Python string is a `List Nat` of Unicode code points (`PyStr`);
* a Python `dict` keyed by prayer names is a function `Prayer → Option _`;
* a caught Python exception inside `update`'s try block makes the entry
  absent; an uncaught exception is `Except.error ()`.
-/

namespace Adhan

/-- The five daily prayers, in canonical (display and scan) order. -/
inductive Prayer where
  | Fajr
  | Dhuhr
  | Asr
  | Maghrib
  | Isha
deriving DecidableEq, Repr

/-- The scan order used by every next-prayer loop in the source:
`for prayer in ['Fajr', 'Dhuhr', 'Asr', 'Maghrib', 'Isha']`. -/
def prayerOrder : List Prayer :=
  [Prayer.Fajr, Prayer.Dhuhr, Prayer.Asr, Prayer.Maghrib, Prayer.Isha]

/-- The reverse scan order used by the progress-bar previous-prayer loop:
`for p in ['Isha', 'Maghrib', 'Asr', 'Dhuhr', 'Fajr']`. -/
def reverseOrder : List Prayer :=
  [Prayer.Isha, Prayer.Maghrib, Prayer.Asr, Prayer.Dhuhr, Prayer.Fajr]

/-- Position of a prayer in `prayerOrder`. -/
def prayerIdx : Prayer → Nat
  | Prayer.Fajr => 0
  | Prayer.Dhuhr => 1
  | Prayer.Asr => 2
  | Prayer.Maghrib => 3
  | Prayer.Isha => 4

/-- Position of a prayer in `reverseOrder`. -/
def revIdx : Prayer → Nat
  | Prayer.Isha => 0
  | Prayer.Maghrib => 1
  | Prayer.Asr => 2
  | Prayer.Dhuhr => 3
  | Prayer.Fajr => 4

/-- A Python string, as its list of Unicode code points. -/
def PyStr : Type := List Nat
deriving DecidableEq

/-- State of `PrayerTimesManager` that the queries read: the
`self.prayer_times` dict (absent entry = prayer omitted), the
`self.hijri_date` string and the `self.timezone` object (modelled by the
IANA name it was built from; `none` when unresolved). -/
structure Schedule where
  times : Prayer → Option Int
  hijri_date : PyStr
  timezone : Option PyStr

/-- Model of `now.replace(hour=0, minute=0, second=0)`: local midnight of the day
containing `now` (Lean `%` on `Int` is euclidean mod, which agrees with
floor mod for the positive modulus 86400, matching Python). -/
def localMidnight (now : Int) : Int :=
  now - now % 86400

/-- The scan loop of `PrayerTimesManager.get_next_prayer`
(adhan-live-gui.py lines 240-244): first prayer of `l` present in the dict
whose stored time is strictly after `now`. -/
def findNext : List Prayer → (Prayer → Option Int) → Int → Option (Prayer × Int)
  | [], _, _ => none
  | p :: ps, times, now =>
    match times p with
    | some t => if now < t then some (p, t) else findNext ps times now
    | none => findNext ps times now

/-- Model of `PrayerTimesManager.get_next_prayer` (adhan-live-gui.py lines 237-250):
scan in canonical order; if nothing is upcoming, fall back to today's Fajr
plus `timedelta(days=1)` (86400 s); `None` when Fajr is absent too. -/
def get_next_prayer (s : Schedule) (now : Int) : Option (Prayer × Int) :=
  match findNext prayerOrder s.times now with
  | some r => some r
  | none =>
    match s.times Prayer.Fajr with
    | some t => some (Prayer.Fajr, t + 86400)
    | none => none

/-- Model of `PrayerTimesManager.get_time_remaining` (adhan-live-gui.py lines
252-263). `diff.total_seconds() < 0` guards the negative case; otherwise
`diff.seconds` is the sub-day part of the timedelta (`diff % 86400`), which
is then split into hours / minutes / seconds. -/
def get_time_remaining (now target : Int) : Nat × Nat × Nat :=
  let diff := target - now
  if diff < 0 then
    (0, 0, 0)
  else
    let s := (diff % 86400).toNat
    (s / 3600, (s % 3600) / 60, s % 60)

/-- Model of `PrayerTimesManager.is_prayer_time` (adhan-live-gui.py lines 265-272):
the prayer is in the dict and `abs((now - prayer_time).total_seconds()) < 60`. -/
def is_prayer_time (s : Schedule) (p : Prayer) (now : Int) : Bool :=
  match s.times p with
  | none => false
  | some t => decide (|now - t| < 60)

/-- The previous-prayer loop of the progress-bar computation
(adhan-live-gui.py lines 1128-1131): first prayer of `l` present in the
dict whose stored time is strictly before `now`. -/
def findPrevPassed : List Prayer → (Prayer → Option Int) → Int → Option Int
  | [], _, _ => none
  | p :: ps, times, now =>
    match times p with
    | some t => if t < now then some t else findPrevPassed ps times now
    | none => findPrevPassed ps times now

/-- The `prev_prayer_time` value of the progress-bar computation (adhan-live-gui.py
lines 1127-1131): initialised to local midnight, overwritten by the first
passed prayer found in reverse order. -/
def window_start (s : Schedule) (now : Int) : Int :=
  match findPrevPassed reverseOrder s.times now with
  | some t => t
  | none => localMidnight now

/-- The progress-bar computation of `AdhanLiveWindow.update_display`
(adhan-live-gui.py lines 1126-1138): window start, window end (the
next-prayer instant) and the fraction
`min(1.0, max(0.0, elapsed / total_duration)) if total_duration > 0 else 0`,
with real division modelled over `ℚ`. `none` when `get_next_prayer`
returned `None` (the GUI then skips the progress bar). -/
def progress_window (s : Schedule) (now : Int) : Option (Int × Int × ℚ) :=
  match get_next_prayer s now with
  | none => none
  | some (_, prayer_time) =>
    let prev := window_start s now
    let total_duration : ℚ := ((prayer_time - prev : Int) : ℚ)
    let elapsed : ℚ := ((now - prev : Int) : ℚ)
    let progress : ℚ :=
      if 0 < total_duration then min 1 (max 0 (elapsed / total_duration)) else 0
    some (prev, prayer_time, progress)

/-- Python lexicographic string comparison `a < b` (code-point order), as
used by the console variant when it compares `"HH:MM"` strings. -/
def pyStrLt : List Nat → List Nat → Bool
  | _, [] => false
  | [], _ :: _ => true
  | a :: as, b :: bs =>
    if a < b then true else if b < a then false else pyStrLt as bs

/-- Code points treated as whitespace by `str.split()` / `int()` stripping
(ASCII subset; upstream timing strings are ASCII). -/
def isSpace (c : Nat) : Bool :=
  c = 32 || c = 9 || c = 10 || c = 11 || c = 12 || c = 13

/-- Is the code point an ASCII digit? -/
def isDigit (c : Nat) : Bool :=
  48 ≤ c && c ≤ 57

/-- Numeric value of a list of ASCII digit code points. -/
def digitsVal (l : List Nat) : Nat :=
  l.foldl (fun acc c => acc * 10 + (c - 48)) 0

/-- Model of `s.split()[0]`: the first whitespace-delimited token, `none` when the
string has no token at all (Python then raises IndexError). -/
def firstToken? (s : PyStr) : Option PyStr :=
  let t := List.dropWhile isSpace s
  match t with
  | [] => none
  | _ => some (t.takeWhile (fun c => !isSpace c))

/-- Model of `s.split(sep)` for a one-character separator: splits at every
occurrence, keeping empty pieces (Python semantics). -/
def pySplitOn (sep : Nat) : PyStr → List PyStr
  | [] => [[]]
  | c :: cs =>
    let r := pySplitOn sep cs
    if c = sep then [] :: r
    else
      match r with
      | [] => [[c]]
      | x :: xs => (c :: x) :: xs

/-- Python `int(s)` on a string: optional surrounding whitespace, optional
sign, then a nonempty run of ASCII digits; `none` models ValueError. -/
def pyInt? (s : PyStr) : Option Int :=
  let t := ((List.dropWhile isSpace s).reverse.dropWhile isSpace).reverse
  match t with
  | 43 :: rest =>
    if rest ≠ [] ∧ rest.all isDigit then some (digitsVal rest) else none
  | 45 :: rest =>
    if rest ≠ [] ∧ rest.all isDigit then some (-(digitsVal rest : Int)) else none
  | _ =>
    if t ≠ [] ∧ t.all isDigit then some (digitsVal t) else none

/-- The try block of `PrayerTimesManager.update` (adhan-live-gui.py lines
223-228) on one already-whitespace-split token: `hour, minute =
map(int, time_str.split(':'))` then
`date_obj.replace(hour=hour, minute=minute, second=0, microsecond=0)`.
Any ValueError (wrong field count, non-integer field, or a field outside
the range `replace` accepts) is caught and yields `none` (entry omitted). -/
def parseTok (now : Int) (tok : PyStr) : Option Int :=
  match pySplitOn 58 tok with
  | [hs, ms] =>
    match pyInt? hs, pyInt? ms with
    | some h, some m =>
      if 0 ≤ h ∧ h ≤ 23 ∧ 0 ≤ m ∧ m ≤ 59 then
        some (localMidnight now + h * 3600 + m * 60)
      else
        none
    | _, _ => none
  | _ => none

/-- The per-prayer body of `update`'s loop (adhan-live-gui.py lines
220-228). `timings[prayer].split()[0]` sits OUTSIDE the try block, so a
token-less string raises an uncaught IndexError (`Except.error ()`). -/
def updateEntry (now : Int) (raw : PyStr) : Except Unit (Option Int) :=
  match firstToken? raw with
  | none => Except.error ()
  | some tok => Except.ok (parseTok now tok)

/-- Model of `PrayerTimesManager.update` (adhan-live-gui.py lines 204-235) after a
successful fetch, restricted to what it stores in `self.prayer_times` and
its return value: iterates the five prayers in canonical order, building
the dict; returns `(True, dict)` unless an uncaught exception escapes. -/
def update (now : Int) (timings : Prayer → Option PyStr) :
    Except Unit (Bool × (Prayer → Option Int)) := do
  let m ← prayerOrder.foldlM
    (fun (m : Prayer → Option Int) (p : Prayer) => do
      match timings p with
      | none => pure m
      | some raw =>
        let v ← updateEntry now raw
        pure (fun q => if q = p then v else m q))
    (fun _ => none)
  pure (true, m)

/-- Model of `now.strftime('%H:%M')` at second granularity: zero-padded hour and
minute of the local wall-clock time, as a five-character string
(58 is the code point of the colon). -/
def hhmm (h m : Nat) : PyStr :=
  [48 + h / 10, 48 + h % 10, 58, 48 + m / 10, 48 + m % 10]

/-- The `current_time = now.strftime('%H:%M')` string of the console
variant (adhan-live.py line 185). -/
def strftimeHM (now : Int) : PyStr :=
  let secOfDay := (now % 86400).toNat
  hhmm (secOfDay / 3600) ((secOfDay % 3600) / 60)

/-- The scan loop of the console variant `AdhanLive.get_next_prayer`
(adhan-live.py lines 195-199): iterate the enabled-prayers list; for each
prayer present in the dict of `"HH:MM"` strings, return it as soon as its
string compares lexicographically greater than `current_time`. -/
def findNextConsole :
    List Prayer → (Prayer → Option PyStr) → PyStr → Option (Prayer × PyStr)
  | [], _, _ => none
  | p :: ps, times, cur =>
    match times p with
    | some t => if pyStrLt cur t then some (p, t) else findNextConsole ps times cur
    | none => findNextConsole ps times cur

/-- Console variant `AdhanLive.get_next_prayer` (adhan-live.py lines
179-205): `(None, None)` when the dict is empty, otherwise the scan, and a
fallback to the first enabled prayer with `self.prayer_times.get(p, '')`
(the Arabic display name is dropped from the model). -/
def get_next_prayer_console (enabled : List Prayer)
    (times : Prayer → Option PyStr) (cur : PyStr) : Option (Prayer × PyStr) :=
  if prayerOrder.all (fun p => (times p).isNone) then none
  else
    match findNextConsole enabled times cur with
    | some r => some r
    | none => enabled.head?.map (fun p => (p, (times p).getD []))

/-- One display tick over an unchanged schedule: the read-only queries the
1-second loop re-derives, paired with the schedule state after the calls.
None of the embedded methods assigns to `self`, so the output state is the
input state. -/
def tick (s : Schedule) (now target : Int) (p : Prayer) :
    (Option (Prayer × Int) × (Nat × Nat × Nat) × Bool × Option (Int × Int × ℚ))
      × Schedule :=
  ((get_next_prayer s now, get_time_remaining now target,
    is_prayer_time s p now, progress_window s now), s)

/-! Helper lemmas about the scan loops. -/

theorem findNext_eq_none (l : List Prayer) (times : Prayer → Option Int)
    (now : Int) (h : ∀ p ∈ l, ∀ t, times p = some t → t ≤ now) :
    findNext l times now = none := by
  induction l with
  | nil => rfl
  | cons p ps ih =>
    have hrest : ∀ q ∈ ps, ∀ t, times q = some t → t ≤ now :=
      fun q hq => h q (List.mem_cons_of_mem _ hq)
    rcases hp : times p with _ | t
    · simpa [findNext, hp] using ih hrest
    · have hle := h p (List.mem_cons_self _ _) t hp
      simp only [findNext, hp, if_neg (not_lt.mpr hle)]
      exact ih hrest

theorem findNext_append (l1 l2 : List Prayer) (times : Prayer → Option Int)
    (now : Int) (p : Prayer) (t : Int)
    (hmiss : ∀ q ∈ l1, ∀ u, times q = some u → u ≤ now)
    (hp : times p = some t) (ht : now < t) :
    findNext (l1 ++ p :: l2) times now = some (p, t) := by
  induction l1 with
  | nil => simp [findNext, hp, ht]
  | cons q qs ih =>
    have hrest : ∀ r ∈ qs, ∀ u, times r = some u → u ≤ now :=
      fun r hr => hmiss r (List.mem_cons_of_mem _ hr)
    rcases hq : times q with _ | u
    · simpa [findNext, hq] using ih hrest
    · have hle := hmiss q (List.mem_cons_self _ _) u hq
      simp only [List.cons_append, findNext, hq, if_neg (not_lt.mpr hle)]
      exact ih hrest

theorem get_next_prayer_of_findNext (s : Schedule) (now : Int)
    (r : Prayer × Int) (h : findNext prayerOrder s.times now = some r) :
    get_next_prayer s now = some r := by
  simp [get_next_prayer, h]

/-! Sample schedules used by the witnesses: times for 2024-06-01 as seconds
after local midnight (Fajr 05:12, Dhuhr 12:30, Asr 15:45, Maghrib 18:20,
Isha 19:50), matching the spec's concrete scenario. -/

def sampleTimes : Prayer → Option Int
  | Prayer.Fajr => some 18720
  | Prayer.Dhuhr => some 45000
  | Prayer.Asr => some 56700
  | Prayer.Maghrib => some 66000
  | Prayer.Isha => some 71400

def sampleSchedule : Schedule :=
  { times := sampleTimes, hijri_date := [], timezone := none }

/-- Sample schedule with Fajr absent (malformed upstream Fajr string). -/
def noFajrSchedule : Schedule :=
  { times := fun p => if p = Prayer.Fajr then none else sampleTimes p,
    hijri_date := [], timezone := none }

/-! The claim theorems. -/

/-- C1: `get_next_prayer` scans prayers in the fixed order Fajr, Dhuhr,
Asr, Maghrib, Isha and returns the first prayer present in the schedule
whose stored time is strictly after `now` (part 1); for a schedule with
all five prayers present and strictly increasing times and any `now`
strictly between `times[Fajr]` and `times[Isha]`, it returns the correct
upcoming prayer: an upcoming one of minimal time (part 2). -/
theorem C1_next_prayer_scan (s : Schedule) (now : Int) :
    (∀ p t, s.times p = some t → now < t →
      (∀ q u, prayerIdx q < prayerIdx p → s.times q = some u → u ≤ now) →
      get_next_prayer s now = some (p, t))
    ∧ (∀ tF tD tA tM tI,
        s.times Prayer.Fajr = some tF → s.times Prayer.Dhuhr = some tD →
        s.times Prayer.Asr = some tA → s.times Prayer.Maghrib = some tM →
        s.times Prayer.Isha = some tI →
        tF < tD → tD < tA → tA < tM → tM < tI →
        tF < now → now < tI →
        ∃ p tp, get_next_prayer s now = some (p, tp) ∧
          s.times p = some tp ∧ now < tp ∧
          ∀ q u, s.times q = some u → now < u → tp ≤ u) := by
  constructor
  · intro p t hp ht hfirst
    apply get_next_prayer_of_findNext
    cases p
    case Fajr =>
      exact findNext_append []
        [Prayer.Dhuhr, Prayer.Asr, Prayer.Maghrib, Prayer.Isha]
        s.times now _ t (by intro q hq; simp at hq) hp ht
    case Dhuhr =>
      refine findNext_append [Prayer.Fajr]
        [Prayer.Asr, Prayer.Maghrib, Prayer.Isha] s.times now _ t ?_ hp ht
      intro q hq u hu
      fin_cases hq
      exact hfirst Prayer.Fajr u (by decide) hu
    case Asr =>
      refine findNext_append [Prayer.Fajr, Prayer.Dhuhr]
        [Prayer.Maghrib, Prayer.Isha] s.times now _ t ?_ hp ht
      intro q hq u hu
      fin_cases hq
      · exact hfirst Prayer.Fajr u (by decide) hu
      · exact hfirst Prayer.Dhuhr u (by decide) hu
    case Maghrib =>
      refine findNext_append [Prayer.Fajr, Prayer.Dhuhr, Prayer.Asr]
        [Prayer.Isha] s.times now _ t ?_ hp ht
      intro q hq u hu
      fin_cases hq
      · exact hfirst Prayer.Fajr u (by decide) hu
      · exact hfirst Prayer.Dhuhr u (by decide) hu
      · exact hfirst Prayer.Asr u (by decide) hu
    case Isha =>
      refine findNext_append
        [Prayer.Fajr, Prayer.Dhuhr, Prayer.Asr, Prayer.Maghrib]
        [] s.times now _ t ?_ hp ht
      intro q hq u hu
      fin_cases hq
      · exact hfirst Prayer.Fajr u (by decide) hu
      · exact hfirst Prayer.Dhuhr u (by decide) hu
      · exact hfirst Prayer.Asr u (by decide) hu
      · exact hfirst Prayer.Maghrib u (by decide) hu
  · intro tF tD tA tM tI hF hD hA hM hI h1 h2 h3 h4 hlo hhi
    by_cases c1 : now < tD
    · refine ⟨Prayer.Dhuhr, tD, ?_, hD, c1, ?_⟩
      · apply get_next_prayer_of_findNext
        refine findNext_append [Prayer.Fajr]
          [Prayer.Asr, Prayer.Maghrib, Prayer.Isha] s.times now _ tD ?_ hD c1
        intro q hq u hu
        fin_cases hq
        simp only [hF, Option.some.injEq] at hu
        omega
      · intro q u hq hu
        cases q <;> simp only [hF, hD, hA, hM, hI, Option.some.injEq] at hq <;> omega
    · by_cases c2 : now < tA
      · refine ⟨Prayer.Asr, tA, ?_, hA, c2, ?_⟩
        · apply get_next_prayer_of_findNext
          refine findNext_append [Prayer.Fajr, Prayer.Dhuhr]
            [Prayer.Maghrib, Prayer.Isha] s.times now _ tA ?_ hA c2
          intro q hq u hu
          fin_cases hq
          · simp only [hF, Option.some.injEq] at hu; omega
          · simp only [hD, Option.some.injEq] at hu; omega
        · intro q u hq hu
          cases q <;> simp only [hF, hD, hA, hM, hI, Option.some.injEq] at hq <;> omega
      · by_cases c3 : now < tM
        · refine ⟨Prayer.Maghrib, tM, ?_, hM, c3, ?_⟩
          · apply get_next_prayer_of_findNext
            refine findNext_append [Prayer.Fajr, Prayer.Dhuhr, Prayer.Asr]
              [Prayer.Isha] s.times now _ tM ?_ hM c3
            intro q hq u hu
            fin_cases hq
            · simp only [hF, Option.some.injEq] at hu; omega
            · simp only [hD, Option.some.injEq] at hu; omega
            · simp only [hA, Option.some.injEq] at hu; omega
          · intro q u hq hu
            cases q <;> simp only [hF, hD, hA, hM, hI, Option.some.injEq] at hq <;> omega
        · refine ⟨Prayer.Isha, tI, ?_, hI, hhi, ?_⟩
          · apply get_next_prayer_of_findNext
            refine findNext_append
              [Prayer.Fajr, Prayer.Dhuhr, Prayer.Asr, Prayer.Maghrib]
              [] s.times now _ tI ?_ hI hhi
            intro q hq u hu
            fin_cases hq
            · simp only [hF, Option.some.injEq] at hu; omega
            · simp only [hD, Option.some.injEq] at hu; omega
            · simp only [hA, Option.some.injEq] at hu; omega
            · simp only [hM, Option.some.injEq] at hu; omega
          · intro q u hq hu
            cases q <;> simp only [hF, hD, hA, hM, hI, Option.some.injEq] at hq <;> omega

/-- C1 witness: on the spec's concrete schedule at 14:00, the scan part of
`C1_next_prayer_scan` yields Asr at 15:45 (56700 s). -/
theorem C1_witness :
    get_next_prayer sampleSchedule 50400 = some (Prayer.Asr, 56700) := by
  refine (C1_next_prayer_scan sampleSchedule 50400).1 Prayer.Asr 56700 rfl
    (by decide) ?_
  intro q u hq hu
  cases q <;>
    simp only [sampleSchedule, sampleTimes, prayerIdx, Option.some.injEq] at hq hu <;>
    omega

/-- C2: for every schedule containing Fajr and every `now` strictly after
all stored prayer times, `get_next_prayer` returns
`(Fajr, times[Fajr] + 24h)` — tomorrow's Fajr as today's stored Fajr
instant plus exactly 86400 seconds, with no re-fetch involved. -/
theorem C2_tomorrow_fajr (s : Schedule) (now : Int) (tF : Int)
    (hF : s.times Prayer.Fajr = some tF)
    (hall : ∀ p t, s.times p = some t → t < now) :
    get_next_prayer s now = some (Prayer.Fajr, tF + 86400) := by
  have hnone : findNext prayerOrder s.times now = none :=
    findNext_eq_none _ _ _ (fun p _ t hp => (hall p t hp).le)
  simp [get_next_prayer, hnone, hF]

/-- C2 witness: on the sample schedule at 100000 s (after Isha at 71400 s),
the next prayer is Fajr at 18720 + 86400 = 105120 s. -/
theorem C2_witness :
    get_next_prayer sampleSchedule 100000 = some (Prayer.Fajr, 105120) := by
  refine C2_tomorrow_fajr sampleSchedule 100000 18720 rfl ?_
  intro p t hp
  cases p <;> simp [sampleSchedule, sampleTimes] at hp <;> omega

/-- C6: for every schedule in which Fajr is absent and every `now` strictly
after all stored prayer times, `get_next_prayer` returns `none` rather
than raising. -/
theorem C6_no_fajr_none (s : Schedule) (now : Int)
    (hF : s.times Prayer.Fajr = none)
    (hall : ∀ p t, s.times p = some t → t < now) :
    get_next_prayer s now = none := by
  have hnone : findNext prayerOrder s.times now = none :=
    findNext_eq_none _ _ _ (fun p _ t hp => (hall p t hp).le)
  simp [get_next_prayer, hnone, hF]

/-- C6 witness: the Fajr-less sample schedule at 100000 s (after every
stored time) yields `none`. -/
theorem C6_witness : get_next_prayer noFajrSchedule 100000 = none := by
  refine C6_no_fajr_none noFajrSchedule 100000 rfl ?_
  intro p t hp
  cases p <;> simp [noFajrSchedule, sampleTimes] at hp <;> omega

/-- C3 counterexample: the claim says `get_time_remaining` decomposes the
whole non-negative duration `target - now` into hours/minutes/seconds, so
a 25-hour gap (90000 s) would give `(25, 0, 0)`; the code keeps only
`diff.seconds`, the sub-day part, and returns `(1, 0, 0)`. -/
theorem C3_counterexample :
    get_time_remaining 0 90000 = (1, 0, 0) ∧
    (25 : Nat) * 3600 = 90000 ∧
    get_time_remaining 0 90000 ≠ (25, 0, 0) := by
  refine ⟨by decide, by decide, by decide⟩

/-- C3 amended: if `target` is before `now`, `get_time_remaining` returns
`(0, 0, 0)`; otherwise, PROVIDED the duration is less than 24 hours, it
returns the standard hours / minutes-within-hour / seconds-within-minute
decomposition of `target - now` (whole days of longer durations are
discarded first, see the counterexample and C9). -/
theorem C3_time_remaining (now target : Int) :
    (target < now → get_time_remaining now target = (0, 0, 0))
    ∧ (now ≤ target → target - now < 86400 →
        get_time_remaining now target =
          ((target - now).toNat / 3600, ((target - now).toNat % 3600) / 60,
            (target - now).toNat % 60)) := by
  constructor
  · intro h
    simp only [get_time_remaining, if_pos (by omega : target - now < 0)]
  · intro h1 h2
    have hmod : (target - now) % 86400 = target - now := by omega
    simp only [get_time_remaining, if_neg (by omega : ¬ target - now < 0), hmod]

/-- C3 witness: 3 h 25 m 10 s ahead gives `(3, 25, 10)`; a passed target
gives `(0, 0, 0)`. -/
theorem C3_witness :
    get_time_remaining 0 12310 = (3, 25, 10) ∧
    get_time_remaining 10 5 = (0, 0, 0) := by
  constructor
  · have h := (C3_time_remaining 0 12310).2 (by decide) (by decide)
    rw [h]
    decide
  · exact (C3_time_remaining 10 5).1 (by decide)

/-- C4: `is_prayer_time` is true iff the prayer is present in the schedule
and `|now - times[p]| < 60` seconds; in particular it is true 59 seconds
either side of the stored time and false 61 seconds either side. -/
theorem C4_is_prayer_time (s : Schedule) (p : Prayer) (now : Int) :
    (is_prayer_time s p now = true ↔
      ∃ t, s.times p = some t ∧ |now - t| < 60)
    ∧ (∀ t, s.times p = some t →
        is_prayer_time s p (t + 59) = true ∧
        is_prayer_time s p (t - 59) = true ∧
        is_prayer_time s p (t + 61) = false ∧
        is_prayer_time s p (t - 61) = false) := by
  constructor
  · rcases h : s.times p with _ | t
    · simp [is_prayer_time, h]
    · simp only [is_prayer_time, h, decide_eq_true_eq, Option.some.injEq]
      constructor
      · intro hlt
        exact ⟨t, rfl, hlt⟩
      · rintro ⟨u, rfl, hu⟩
        exact hu
  · intro t ht
    simp only [is_prayer_time, ht, decide_eq_true_eq, decide_eq_false_iff_not,
      abs_lt]
    refine ⟨⟨by omega, by omega⟩, ⟨by omega, by omega⟩, by omega, by omega⟩

/-- C4 witness: Dhuhr is stored at 45000 s in the sample schedule; the
query is true at 45000 ± 59 and false at 45000 ± 61. -/
theorem C4_witness :
    is_prayer_time sampleSchedule Prayer.Dhuhr (45000 + 59) = true ∧
    is_prayer_time sampleSchedule Prayer.Dhuhr (45000 - 59) = true ∧
    is_prayer_time sampleSchedule Prayer.Dhuhr (45000 + 61) = false ∧
    is_prayer_time sampleSchedule Prayer.Dhuhr (45000 - 61) = false :=
  (C4_is_prayer_time sampleSchedule Prayer.Dhuhr 0).2 45000 rfl

/-- C9 (implicit): for every `now` and every `target` whatsoever —
including targets more than 24 hours ahead — the triple returned by
`get_time_remaining` has hours in `[0, 23]`, minutes in `[0, 59]` and
seconds in `[0, 59]`, because only the sub-day seconds of the difference
are decomposed. -/
theorem C9_remaining_bounded (now target : Int) :
    (get_time_remaining now target).1 < 24 ∧
    (get_time_remaining now target).2.1 < 60 ∧
    (get_time_remaining now target).2.2 < 60 := by
  simp only [get_time_remaining]
  split_ifs with h
  · exact ⟨by decide, by decide, by decide⟩
  · refine ⟨?_, ?_, ?_⟩ <;> simp only [] <;> omega

theorem findPrevPassed_eq_none (l : List Prayer) (times : Prayer → Option Int)
    (now : Int) (h : ∀ p ∈ l, ∀ t, times p = some t → now ≤ t) :
    findPrevPassed l times now = none := by
  induction l with
  | nil => rfl
  | cons p ps ih =>
    have hrest : ∀ q ∈ ps, ∀ t, times q = some t → now ≤ t :=
      fun q hq => h q (List.mem_cons_of_mem _ hq)
    rcases hp : times p with _ | t
    · simpa [findPrevPassed, hp] using ih hrest
    · have hle := h p (List.mem_cons_self _ _) t hp
      simp only [findPrevPassed, hp, if_neg (not_lt.mpr hle)]
      exact ih hrest

theorem findPrevPassed_append (l1 l2 : List Prayer) (times : Prayer → Option Int)
    (now : Int) (p : Prayer) (t : Int)
    (hmiss : ∀ q ∈ l1, ∀ u, times q = some u → now ≤ u)
    (hp : times p = some t) (ht : t < now) :
    findPrevPassed (l1 ++ p :: l2) times now = some t := by
  induction l1 with
  | nil => simp [findPrevPassed, hp, ht]
  | cons q qs ih =>
    have hrest : ∀ r ∈ qs, ∀ u, times r = some u → now ≤ u :=
      fun r hr => hmiss r (List.mem_cons_of_mem _ hr)
    rcases hq : times q with _ | u
    · simpa [findPrevPassed, hq] using ih hrest
    · have hle := hmiss q (List.mem_cons_self _ _) u hq
      simp only [List.cons_append, findPrevPassed, hq, if_neg (not_lt.mpr hle)]
      exact ih hrest

/-- C5: the progress-window start is the stored time of the first prayer,
in the reverse order Isha, Maghrib, Asr, Dhuhr, Fajr, that is present and
strictly before `now` (part 2); local midnight when no stored prayer has
passed (part 1); and the fraction is `(now - ws) / (we - ws)` clamped to
`[0, 1]`, and `0` whenever the denominator is non-positive (part 3). -/
theorem C5_progress_window (s : Schedule) (now : Int) :
    ((∀ p t, s.times p = some t → now ≤ t) →
      window_start s now = localMidnight now)
    ∧ (∀ p t, s.times p = some t → t < now →
        (∀ q u, revIdx q < revIdx p → s.times q = some u → now ≤ u) →
        window_start s now = t)
    ∧ (∀ pr we, get_next_prayer s now = some (pr, we) →
        (we - window_start s now ≤ 0 →
          progress_window s now = some (window_start s now, we, 0)) ∧
        (0 < we - window_start s now →
          progress_window s now = some (window_start s now, we,
            max 0 (min 1 (((now - window_start s now : Int) : ℚ)
              / ((we - window_start s now : Int) : ℚ)))))) := by
  refine ⟨?_, ?_, ?_⟩
  · intro h
    have hnone : findPrevPassed reverseOrder s.times now = none :=
      findPrevPassed_eq_none _ _ _ (fun p _ => h p)
    simp [window_start, hnone]
  · intro p t hp ht hfirst
    have hfind : findPrevPassed reverseOrder s.times now = some t := by
      cases p
      case Isha =>
        exact findPrevPassed_append []
          [Prayer.Maghrib, Prayer.Asr, Prayer.Dhuhr, Prayer.Fajr]
          s.times now _ t (by intro q hq; simp at hq) hp ht
      case Maghrib =>
        refine findPrevPassed_append [Prayer.Isha]
          [Prayer.Asr, Prayer.Dhuhr, Prayer.Fajr] s.times now _ t ?_ hp ht
        intro q hq u hu
        fin_cases hq
        exact hfirst Prayer.Isha u (by decide) hu
      case Asr =>
        refine findPrevPassed_append [Prayer.Isha, Prayer.Maghrib]
          [Prayer.Dhuhr, Prayer.Fajr] s.times now _ t ?_ hp ht
        intro q hq u hu
        fin_cases hq
        · exact hfirst Prayer.Isha u (by decide) hu
        · exact hfirst Prayer.Maghrib u (by decide) hu
      case Dhuhr =>
        refine findPrevPassed_append [Prayer.Isha, Prayer.Maghrib, Prayer.Asr]
          [Prayer.Fajr] s.times now _ t ?_ hp ht
        intro q hq u hu
        fin_cases hq
        · exact hfirst Prayer.Isha u (by decide) hu
        · exact hfirst Prayer.Maghrib u (by decide) hu
        · exact hfirst Prayer.Asr u (by decide) hu
      case Fajr =>
        refine findPrevPassed_append
          [Prayer.Isha, Prayer.Maghrib, Prayer.Asr, Prayer.Dhuhr]
          [] s.times now _ t ?_ hp ht
        intro q hq u hu
        fin_cases hq
        · exact hfirst Prayer.Isha u (by decide) hu
        · exact hfirst Prayer.Maghrib u (by decide) hu
        · exact hfirst Prayer.Asr u (by decide) hu
        · exact hfirst Prayer.Dhuhr u (by decide) hu
    simp [window_start, hfind]
  · intro pr we hnp
    constructor
    · intro hle
      have hneg : ¬ (0 : ℚ) < ((we - window_start s now : Int) : ℚ) := by
        rw [not_lt]
        exact_mod_cast hle
      simp only [progress_window, hnp, if_neg hneg]
    · intro hpos
      have hq : (0 : ℚ) < ((we - window_start s now : Int) : ℚ) := by
        exact_mod_cast hpos
      simp only [progress_window, hnp, if_pos hq]
      rw [max_min_distrib_left, max_eq_right (by norm_num : (0 : ℚ) ≤ 1)]

/-- C5 witness: at 14:00 on the sample schedule the last passed prayer is
Dhuhr (12:30), so the window is `[45000, 56700]` and the fraction is
`5400 / 11700 = 6/13`. -/
theorem C5_witness :
    window_start sampleSchedule 50400 = 45000 ∧
    progress_window sampleSchedule 50400 = some (45000, 56700, 6 / 13) := by
  constructor
  · refine (C5_progress_window sampleSchedule 50400).2.1 Prayer.Dhuhr 45000 rfl
      (by decide) ?_
    intro q u hq hu
    cases q <;>
      simp only [sampleSchedule, sampleTimes, revIdx, Option.some.injEq] at hq hu <;>
      omega
  · have hnp : get_next_prayer sampleSchedule 50400 = some (Prayer.Asr, 56700) := by
      decide
    have hws : window_start sampleSchedule 50400 = 45000 := by decide
    simp only [progress_window, hnp, hws]
    rw [if_pos (by norm_num)]
    norm_num

/-- Timings response with a well-formed Fajr `"05:12"` and an empty Dhuhr
time string (no whitespace-delimited token at all). -/
def failingTimings : Prayer → Option PyStr
  | Prayer.Fajr => some [48, 53, 58, 49, 50]
  | Prayer.Dhuhr => some []
  | _ => none

/-- Timings response with a well-formed Fajr `"05:12"` and a non-empty but
malformed Dhuhr string `"9X:30"`. -/
def malformedTimings : Prayer → Option PyStr
  | Prayer.Fajr => some [48, 53, 58, 49, 50]
  | Prayer.Dhuhr => some [57, 88, 58, 51, 48]
  | _ => none

/-- C7: against the claim, the refresh does NOT tolerate every per-prayer
string that fails to parse: a token-less (empty or all-whitespace) Dhuhr
string hits `timings[prayer].split()[0]` outside the try block and the
whole update aborts with an uncaught IndexError (first conjunct). The
intended tolerance does work for a non-empty malformed string, which is
omitted while the other prayers are kept and the update returns success
(second conjunct): the `split()[0]` placement is the slip. -/
theorem C7_update_empty_string_aborts :
    update 0 failingTimings = Except.error () ∧
    (∃ m, update 0 malformedTimings = Except.ok (true, m) ∧
      m Prayer.Fajr = some 18720 ∧ m Prayer.Dhuhr = none ∧
      m Prayer.Asr = none ∧ m Prayer.Maghrib = none ∧ m Prayer.Isha = none) :=
  ⟨rfl, ⟨_, rfl, rfl, rfl, rfl, rfl, rfl⟩⟩

/-- C8: one display tick runs the four queries read-only: the schedule
after a tick is the schedule before it (every field unchanged), and a
second tick on the post-tick schedule with the same `now` yields exactly
the same query results. The embedded methods contain no assignment to the
manager state, so both facts hold definitionally. -/
theorem C8_queries_pure (s : Schedule) (now target : Int) (p : Prayer) :
    (tick s now target p).2 = s ∧
    ((tick s now target p).2).times = s.times ∧
    ((tick s now target p).2).hijri_date = s.hijri_date ∧
    ((tick s now target p).2).timezone = s.timezone ∧
    (tick ((tick s now target p).2) now target p).1 = (tick s now target p).1 :=
  ⟨rfl, rfl, rfl, rfl, rfl⟩

/-- Lexicographic comparison of two zero-padded `"HH:MM"` strings agrees
with numeric comparison of the minutes-of-day values. -/
theorem pyStrLt_hhmm (h1 m1 h2 m2 : Nat) (_hh1 : h1 < 24) (_hm1 : m1 < 60)
    (_hh2 : h2 < 24) (_hm2 : m2 < 60) :
    pyStrLt (hhmm h1 m1) (hhmm h2 m2) = decide (h1 * 60 + m1 < h2 * 60 + m2) := by
  simp only [hhmm, pyStrLt]
  split_ifs <;>
    first
      | exact (decide_eq_true (by omega)).symm
      | exact (decide_eq_false (by omega)).symm

/-- The console scan over `"HH:MM"` strings picks the same prayer as the
GUI scan over instants, for any list of prayers, any partial schedule of
in-range hour/minute pairs, and any `now` = day start + `sec`. -/
theorem consoleScanAgrees (l : List Prayer) (hm : Prayer → Option (Nat × Nat))
    (d : Int) (sec : Nat) (hsec : sec < 86400)
    (hbound : ∀ p h m, hm p = some (h, m) → h < 24 ∧ m < 60) :
    (findNextConsole l (fun p => (hm p).map (fun x => hhmm x.1 x.2))
        (strftimeHM (86400 * d + (sec : Int)))).map Prod.fst
      = (findNext l (fun p => (hm p).map
            (fun x => 86400 * d + ((x.1 * 3600 + x.2 * 60 : Nat) : Int)))
          (86400 * d + (sec : Int))).map Prod.fst := by
  have hmod : (86400 * d + (sec : Int)) % 86400 = (sec : Int) := by omega
  have hcur : strftimeHM (86400 * d + (sec : Int))
      = hhmm (sec / 3600) (sec % 3600 / 60) := by
    simp [strftimeHM, hmod]
  induction l with
  | nil => rfl
  | cons p ps ih =>
    rcases hp : hm p with _ | ⟨h, m⟩
    · simpa [findNextConsole, findNext, hp] using ih
    · have hb := hbound p h m hp
      have hkey : pyStrLt (strftimeHM (86400 * d + (sec : Int))) (hhmm h m)
          = decide ((86400 * d + (sec : Int))
              < 86400 * d + ((h * 3600 + m * 60 : Nat) : Int)) := by
        rw [hcur, pyStrLt_hhmm (sec / 3600) (sec % 3600 / 60) h m
          (by omega) (by omega) hb.1 hb.2]
        rw [decide_eq_decide]
        constructor <;> intro <;> omega
      simp only [findNextConsole, findNext, hp, Option.map_some', hkey,
        decide_eq_true_eq]
      by_cases hlt : (86400 * d + (sec : Int))
          < 86400 * d + ((h * 3600 + m * 60 : Nat) : Int)
      · rw [if_pos hlt, if_pos hlt]
        rfl
      · rw [if_neg hlt, if_neg hlt]
        exact ih

/-- C10: the console variant's next-prayer search over zero-padded
`"HH:MM"` strings, scanning the canonical enabled-prayers order, selects
the same first-upcoming prayer as the GUI variant's datetime comparison,
for every partial schedule of in-range hour/minute pairs rendered on the
current day and every `now` inside that day. -/
theorem C10_console_matches_gui (hm : Prayer → Option (Nat × Nat)) (d : Int)
    (sec : Nat) (hsec : sec < 86400)
    (hbound : ∀ p h m, hm p = some (h, m) → h < 24 ∧ m < 60) :
    (findNextConsole prayerOrder
        (fun p => (hm p).map (fun x => hhmm x.1 x.2))
        (strftimeHM (86400 * d + (sec : Int)))).map Prod.fst
      = (findNext prayerOrder (fun p => (hm p).map
            (fun x => 86400 * d + ((x.1 * 3600 + x.2 * 60 : Nat) : Int)))
          (86400 * d + (sec : Int))).map Prod.fst :=
  consoleScanAgrees prayerOrder hm d sec hsec hbound

/-- Hour/minute pairs of the sample schedule (05:12, 12:30, 15:45, 18:20,
19:50). -/
def sampleHM : Prayer → Option (Nat × Nat)
  | Prayer.Fajr => some (5, 12)
  | Prayer.Dhuhr => some (12, 30)
  | Prayer.Asr => some (15, 45)
  | Prayer.Maghrib => some (18, 20)
  | Prayer.Isha => some (19, 50)

/-- C10 witness: at 14:00 (50400 s into day 0) both scans pick Asr. -/
theorem C10_witness :
    (findNextConsole prayerOrder
        (fun p => (sampleHM p).map (fun x => hhmm x.1 x.2))
        (strftimeHM (86400 * 0 + ((50400 : Nat) : Int)))).map Prod.fst
      = (findNext prayerOrder (fun p => (sampleHM p).map
            (fun x => 86400 * 0 + ((x.1 * 3600 + x.2 * 60 : Nat) : Int)))
          (86400 * 0 + ((50400 : Nat) : Int))).map Prod.fst ∧
    (findNextConsole prayerOrder
        (fun p => (sampleHM p).map (fun x => hhmm x.1 x.2))
        (strftimeHM (86400 * 0 + ((50400 : Nat) : Int)))).map Prod.fst
      = some Prayer.Asr := by
  constructor
  · refine C10_console_matches_gui sampleHM 0 50400 (by decide) ?_
    intro p h m hp
    cases p <;> simp only [sampleHM, Option.some.injEq, Prod.mk.injEq] at hp <;>
      omega
  · decide

end Adhan
